import Mathlib

/-!
Verification of the gym-management data layer (`gym_manager.py`) and the
subscription gate (`auth_manager.py`).

Modelling conventions (shallow embedding):
* Python `dict`s are association lists `List (String × α)` with Python's
  update semantics: assignment to an existing key replaces the value in
  place (at the key's position), assignment to a fresh key appends at the
  end, `del` removes the entry.
* Monetary amounts (Python floats coming from validated form input) are
  modelled as exact rationals `ℚ`.
* `datetime` values are explicit year/month/day(/h/m/s) records compared
  lexicographically, exactly as Python compares `datetime` objects;
  `strptime('%Y-%m-%d')` yields the date at midnight.
* Every mutating method also rewrites the JSON file (`save_data`); the file
  always holds a copy of the in-memory document, so only the in-memory
  document is modelled.
* The unused `admin` key of the document is omitted.
-/

namespace Gym

/-- Lookup in an association list (Python `d[k]` / `d.get(k)`). -/
def lookupA {α : Type} : List (String × α) → String → Option α
  | [], _ => none
  | p :: t, k => if p.1 = k then some p.2 else lookupA t k

/-- Python `d[k] = v`: replace in place if the key exists, else append. -/
def insertA {α : Type} : List (String × α) → String → α → List (String × α)
  | [], k, v => [(k, v)]
  | p :: t, k, v => if p.1 = k then (k, v) :: t else p :: insertA t k v

/-- Python `del d[k]` (the key is unique in an actual `dict`). -/
def eraseA {α : Type} : List (String × α) → String → List (String × α)
  | [], _ => []
  | p :: t, k => if p.1 = k then t else p :: eraseA t k

/-- Python `k in d`. -/
def hasKey {α : Type} (l : List (String × α)) (k : String) : Bool :=
  (lookupA l k).isSome

/-- The keys of an association list. -/
def keysA {α : Type} (l : List (String × α)) : List String :=
  l.map Prod.fst

/-- Number of entries stored under a key. -/
def countKey {α : Type} (l : List (String × α)) (k : String) : Nat :=
  (l.filter (fun p => p.1 == k)).length


/-! ### Dates and datetimes -/

/-- A calendar date, as parsed by `datetime.strptime(s, '%Y-%m-%d')`. -/
structure Date where
  year : Nat
  month : Nat
  day : Nat
deriving DecidableEq, Repr

/-- A `datetime.datetime` value (microseconds are never compared here). -/
structure DateTime where
  date : Date
  hour : Nat
  minute : Nat
  second : Nat
deriving DecidableEq, Repr

/-- Python `date`/`datetime` values compare lexicographically on their
normalized fields. -/
def dateLt (a b : Date) : Bool :=
  decide (a.year < b.year) ||
    (a.year == b.year && (decide (a.month < b.month) ||
      (a.month == b.month && decide (a.day < b.day))))

/-- `datetime` comparison `a <= b` (lexicographic on date, then time). -/
def dtLe (a b : DateTime) : Bool :=
  dateLt a.date b.date ||
    (a.date == b.date &&
      (decide (a.hour < b.hour) ||
        (a.hour == b.hour &&
          (decide (a.minute < b.minute) ||
            (a.minute == b.minute && decide (a.second ≤ b.second))))))

def isLeap (y : Nat) : Bool :=
  (y % 4 == 0 && !(y % 100 == 0)) || y % 400 == 0

def daysInMonth (y m : Nat) : Nat :=
  if m = 2 then (if isLeap y then 29 else 28)
  else if m = 4 ∨ m = 6 ∨ m = 9 ∨ m = 11 then 30
  else 31

def nextDay (d : Date) : Date :=
  if d.day < daysInMonth d.year d.month then ⟨d.year, d.month, d.day + 1⟩
  else if d.month < 12 then ⟨d.year, d.month + 1, 1⟩
  else ⟨d.year + 1, 1, 1⟩

/-- `date + timedelta(days = n)`. -/
def addDays (d : Date) : Nat → Date
  | 0 => d
  | n + 1 => nextDay (addDays d n)

/-- `datetime.strptime(s, '%Y-%m-%d')` (none models the `ValueError`). -/
def parseDate (s : String) : Option Date :=
  match s.splitOn "-" with
  | [ys, ms, ds] =>
      match ys.toNat?, ms.toNat?, ds.toNat? with
      | some y, some m, some d =>
          if 1 ≤ m ∧ m ≤ 12 ∧ 1 ≤ d ∧ d ≤ daysInMonth y m then some ⟨y, m, d⟩
          else none
      | _, _, _ => none
  | _ => none

/-- Zero-padded decimal rendering (Python `f"{n:04d}"` and `strftime`). -/
def padNum (w n : Nat) : String :=
  let s := toString n
  String.mk (List.replicate (w - s.length) '0') ++ s

/-- `date.strftime('%Y-%m-%d')`. -/
def formatDate (d : Date) : String :=
  padNum 4 d.year ++ "-" ++ padNum 2 d.month ++ "-" ++ padNum 2 d.day

/-- Python `s.startswith(p)` (code-point prefix test). -/
def strStartsWith (s p : String) : Bool :=
  p.data.isPrefixOf s.data

/-! ### The gym document (`GymManager.data`) -/

/-- One entry of `data['members']`. -/
structure Member where
  id : String
  name : String
  phone : String
  email : String
  photo : Option String
  joined_date : String
  active : Bool
  membership_type : String
  is_trial : Bool
  trial_end_date : Option String
deriving DecidableEq, Repr

/-- One entry of `data['fees'][member_id]` (keyed by month `YYYY-MM`). -/
structure FeeRecord where
  amount : ℚ
  paid_date : String
  notes : String
deriving DecidableEq, Repr

/-- One entry of `data['expenses']`. -/
structure Expense where
  id : String
  category : String
  amount : ℚ
  date : String
  description : String
deriving DecidableEq, Repr

/-- One entry of `data['classes']`. `capacity` is `int(capacity)` of the
form value, a nonnegative count. -/
structure GymClass where
  id : String
  name : String
  day : String
  time : String
  instructor : String
  capacity : Nat
  attendees : List String
deriving DecidableEq, Repr

/-- `data['gym_details']`. -/
structure GymDetails where
  name : String
  logo : Option String
  currency : String
deriving DecidableEq, Repr

/-- The whole per-user JSON document. The `attendance`, `classes` and
`expenses` keys may be absent in an old file; every operation treats an
absent key exactly like an empty mapping, so they are modelled as always
present. -/
structure GymData where
  members : List (String × Member)
  fees : List (String × List (String × FeeRecord))
  expenses : List (String × Expense)
  attendance : List (String × List String)
  classes : List (String × GymClass)
  next_member_id : Nat
  gym_details : GymDetails
deriving DecidableEq, Repr

/-- `_create_empty_data`. -/
def emptyData : GymData :=
  { members := [], fees := [], expenses := [], attendance := [], classes := []
    next_member_id := 1
    gym_details := { name := "Gym Manager", logo := none, currency := "$" } }

/-! ### GymManager operations -/

/-- Resolution of `add_member`'s `joined_date`: a falsy value (None or
`''`) defaults to today's date. -/
def resolveJoined (joined_date : Option String) (now_date : String) : String :=
  match joined_date with
  | none => now_date
  | some s => if s = "" then now_date else s

/-- `add_member`. A trial member gets `trial_end_date = joined + 3 days`,
where an unparsable `joined_date` raises (`none`) before the document is
touched.  Returns `int(member_id)` and the new document. -/
def add_member (d : GymData) (name phone : String) (photo : Option String)
    (membership_type : String) (joined_date : Option String) (is_trial : Bool)
    (email : Option String) (now_date : String) : Option (Nat × GymData) :=
  let member_id := toString d.next_member_id
  let j := resolveJoined joined_date now_date
  let mk : Option String → Member := fun te =>
    { id := member_id, name := name, phone := phone, email := email.getD ""
      photo := photo, joined_date := j, active := true
      membership_type := membership_type, is_trial := is_trial
      trial_end_date := te }
  if is_trial then
    match parseDate j with
    | none => none
    | some t =>
        some (d.next_member_id,
          { d with members := insertA d.members member_id (mk (some (formatDate (addDays t 3))))
                   next_member_id := d.next_member_id + 1 })
  else
    some (d.next_member_id,
      { d with members := insertA d.members member_id (mk none)
               next_member_id := d.next_member_id + 1 })

/-- `update_member`. `email` is applied whenever it is not None; a falsy
`joined_date` (None or `''`) is ignored. -/
def update_member (d : GymData) (member_id name phone membership_type : String)
    (joined_date : Option String) (email : Option String) : Bool × GymData :=
  match lookupA d.members member_id with
  | none => (false, d)
  | some m =>
      let m1 := { m with name := name, phone := phone, membership_type := membership_type }
      let m2 := match email with
        | none => m1
        | some e => { m1 with email := e }
      let m3 := match joined_date with
        | none => m2
        | some j => if j = "" then m2 else { m2 with joined_date := j }
      (true, { d with members := insertA d.members member_id m3 })

/-- `delete_member`: removes the member and (when present) their fees. -/
def delete_member (d : GymData) (member_id : String) : Bool × GymData :=
  match lookupA d.members member_id with
  | none => (false, d)
  | some _ =>
      (true, { d with members := eraseA d.members member_id
                      fees := eraseA d.fees member_id })

/-- The identifier `add_expense` assigns: `f"EXP{len(expenses) + 1:04d}"`. -/
def expenseIdFor (d : GymData) : String :=
  "EXP" ++ padNum 4 (d.expenses.length + 1)

/-- `add_expense`. Always returns True. -/
def add_expense (d : GymData) (category : String) (amount : ℚ)
    (date description : String) : Bool × GymData :=
  let expense_id := expenseIdFor d
  let e : Expense :=
    { id := expense_id, category := category, amount := amount
      date := date, description := description }
  (true, { d with expenses := insertA d.expenses expense_id e })

/-- Stable insertion into a sorted list: `a` goes before the first element
it compares `le` to, so ties keep their original relative order. -/
def insertLe {α : Type} (le : α → α → Bool) (a : α) : List α → List α
  | [] => [a]
  | b :: l => if le a b then a :: b :: l else b :: insertLe le a l

/-- Stable sort (Python's `list.sort` is stable; for the total preorder
used here any stable sort computes the same list). -/
def sortLe {α : Type} (le : α → α → Bool) : List α → List α
  | [] => []
  | a :: l => insertLe le a (sortLe le l)

/-- `get_expenses`: list the expense records, optionally filtered to one
month via `date.startswith(month)` (skipped for a falsy month), sorted by
date descending. -/
def get_expenses (d : GymData) (month : Option String) : List Expense :=
  let es := d.expenses.map Prod.snd
  let es := match month with
    | none => es
    | some m => if m = "" then es else es.filter (fun e => strStartsWith e.date m)
  sortLe (fun a b => decide (b.date ≤ a.date)) es

/-- `delete_expense`. -/
def delete_expense (d : GymData) (expense_id : String) : Bool × GymData :=
  match lookupA d.expenses expense_id with
  | none => (false, d)
  | some _ => (true, { d with expenses := eraseA d.expenses expense_id })

/-- Resolution of `pay_fee`'s `paid_date` argument: a falsy value (None or
`''`) defaults to the current timestamp. -/
def resolvePaidDate (paid_date : Option String) (now : String) : String :=
  match paid_date with
  | none => now
  | some s => if s = "" then now else s

/-- `pay_fee`: fails for an unknown member, otherwise writes the record for
that member and month (overwriting any previous one). -/
def pay_fee (d : GymData) (member_id month : String) (amount : ℚ)
    (paid_date notes : Option String) (now : String) : Bool × GymData :=
  match lookupA d.members member_id with
  | none => (false, d)
  | some _ =>
      let inner := (lookupA d.fees member_id).getD []
      let rec_ : FeeRecord :=
        { amount := amount, paid_date := resolvePaidDate paid_date now
          notes := notes.getD "" }
      (true, { d with fees := insertA d.fees member_id (insertA inner month rec_) })

/-- `delete_fee`. -/
def delete_fee (d : GymData) (member_id month : String) : Bool × GymData :=
  match lookupA d.fees member_id with
  | none => (false, d)
  | some inner =>
      match lookupA inner month with
      | none => (false, d)
      | some _ =>
          (true, { d with fees := insertA d.fees member_id (eraseA inner month) })

/-- `update_fee`: overwrites amount and paid date; notes only when given. -/
def update_fee (d : GymData) (member_id month : String) (amount : ℚ)
    (date : String) (notes : Option String) : Bool × GymData :=
  match lookupA d.fees member_id with
  | none => (false, d)
  | some inner =>
      match lookupA inner month with
      | none => (false, d)
      | some r =>
          let r1 := { r with amount := amount, paid_date := date }
          let r2 := match notes with
            | none => r1
            | some n => { r1 with notes := n }
          (true, { d with fees := insertA d.fees member_id (insertA inner month r2) })

/-- The fee record stored for a member and month, if any. -/
def feeLookup (d : GymData) (member_id month : String) : Option FeeRecord :=
  match lookupA d.fees member_id with
  | none => none
  | some inner => lookupA inner month

/-- `is_fee_paid`: a pure presence check. -/
def is_fee_paid (d : GymData) (member_id month : String) : Bool :=
  match lookupA d.fees member_id with
  | none => false
  | some inner => (lookupA inner month).isSome

/-- `log_attendance`: appends a timestamp for a known member. -/
def log_attendance (d : GymData) (member_id timestamp : String) : Bool × GymData :=
  match lookupA d.members member_id with
  | none => (false, d)
  | some _ =>
      let log := (lookupA d.attendance member_id).getD []
      (true, { d with attendance := insertA d.attendance member_id (log ++ [timestamp]) })

/-- `get_attendance` (newest first). -/
def get_attendance (d : GymData) (member_id : String) : List String :=
  ((lookupA d.attendance member_id).getD []).reverse

/-- `add_class`: the id is `str(len(classes) + 1)`; attendees start empty. -/
def add_class (d : GymData) (name day time instructor : String)
    (capacity : Nat) : String × GymData :=
  let class_id := toString (d.classes.length + 1)
  let c : GymClass :=
    { id := class_id, name := name, day := day, time := time
      instructor := instructor, capacity := capacity, attendees := [] }
  (class_id, { d with classes := insertA d.classes class_id c })

/-- `book_class`: unknown class fails; an already-booked member succeeds
without change; a full class fails; otherwise the member is appended. -/
def book_class (d : GymData) (member_id class_id : String) : Bool × GymData :=
  match lookupA d.classes class_id with
  | none => (false, d)
  | some cls =>
      if member_id ∈ cls.attendees then (true, d)
      else if cls.capacity ≤ cls.attendees.length then (false, d)
      else
        let cls' := { cls with attendees := cls.attendees ++ [member_id] }
        (true, { d with classes := insertA d.classes class_id cls' })

/-- `get_member`. -/
def get_member (d : GymData) (member_id : String) : Option Member :=
  lookupA d.members member_id

/-- A member record enriched with `last_paid` and `amount`
(`member.copy()` plus the two extra keys in `get_payment_status`). -/
structure PaidEntry where
  member : Member
  last_paid : String
  amount : ℚ
deriving DecidableEq, Repr

structure PaymentStatus where
  paid : List PaidEntry
  unpaid : List Member
deriving DecidableEq, Repr

/-- The member loop of `get_payment_status`: `is_fee_paid` succeeding is
exactly `feeLookup` returning a record, which is then read back. -/
def paymentStatusGo (fees : List (String × List (String × FeeRecord)))
    (month : String) : List (String × Member) → PaymentStatus
  | [] => ⟨[], []⟩
  | (mid, m) :: rest =>
      let st := paymentStatusGo fees month rest
      match (lookupA fees mid).bind (fun inner => lookupA inner month) with
      | some fi => ⟨⟨m, fi.paid_date, fi.amount⟩ :: st.paid, st.unpaid⟩
      | none => ⟨st.paid, m :: st.unpaid⟩

/-- `get_payment_status` for an explicitly given month (a None month
defaults to the current month before the loop runs). -/
def get_payment_status (d : GymData) (month : String) : PaymentStatus :=
  paymentStatusGo d.fees month d.members

/-- Round half to even at `q * 100`, i.e. Python's `round(x, 2)` on the
exact value. -/
def roundHalfEven (q : ℚ) : ℤ :=
  let n := ⌊q⌋
  let f := q - n
  if f < 1 / 2 then n
  else if 1 / 2 < f then n + 1
  else if n % 2 = 0 then n else n + 1

def pyRound2 (q : ℚ) : ℚ :=
  (roundHalfEven (q * 100) : ℚ) / 100

structure PLResult where
  revenue : ℚ
  expenses : ℚ
  net_profit : ℚ
  profit_margin : ℚ
deriving DecidableEq, Repr

/-- `calculate_profit_loss`. -/
def calculate_profit_loss (d : GymData) (month : String) : PLResult :=
  let status := get_payment_status d month
  let revenue := (status.paid.map PaidEntry.amount).sum
  let total_expenses := ((get_expenses d (some month)).map Expense.amount).sum
  let net_profit := revenue - total_expenses
  let profit_margin := if 0 < revenue then net_profit / revenue * 100 else 0
  { revenue := revenue, expenses := total_expenses, net_profit := net_profit
    profit_margin := pyRound2 profit_margin }

/-- `update_gym_details` (`logo` only stored when truthy). -/
def update_gym_details (d : GymData) (name : String) (logo_path : Option String)
    (currency : String) : Bool × GymData :=
  let g1 := { d.gym_details with name := name, currency := currency }
  let g2 := match logo_path with
    | none => g1
    | some l => if l = "" then g1 else { g1 with logo := l }
  (true, { d with gym_details := g2 })

/-- `reset_data`. -/
def reset_data (_ : GymData) : GymData := emptyData

/-! ### Operation alphabet

Every state-changing `GymManager` method, with its arguments, so that
properties can be stated over arbitrary call sequences.  The read-only
methods do not modify the document (the self-healing defaults of
`get_gym_details` only touch `gym_details`, which is always present in
this model). -/

inductive Op where
  | addMember (name phone : String) (photo : Option String) (membership_type : String)
      (joined_date : Option String) (is_trial : Bool) (email : Option String)
      (now_date : String)
  | updateMember (member_id name phone membership_type : String)
      (joined_date email : Option String)
  | deleteMember (member_id : String)
  | addExpense (category : String) (amount : ℚ) (date description : String)
  | deleteExpense (expense_id : String)
  | payFee (member_id month : String) (amount : ℚ) (paid_date notes : Option String)
      (now : String)
  | deleteFee (member_id month : String)
  | updateFee (member_id month : String) (amount : ℚ) (date : String)
      (notes : Option String)
  | logAttendance (member_id timestamp : String)
  | addClass (name day time instructor : String) (capacity : Nat)
  | bookClass (member_id class_id : String)
  | updateGymDetails (name : String) (logo_path : Option String) (currency : String)
  | resetData

/-- The document reached by one call (an `add_member` that raises leaves
the document untouched). -/
def applyOp (d : GymData) : Op → GymData
  | .addMember n p ph mt j tr e now =>
      match add_member d n p ph mt j tr e now with
      | none => d
      | some (_, d') => d'
  | .updateMember mid n p mt j e => (update_member d mid n p mt j e).2
  | .deleteMember mid => (delete_member d mid).2
  | .addExpense c a dt ds => (add_expense d c a dt ds).2
  | .deleteExpense eid => (delete_expense d eid).2
  | .payFee mid mo a pd no now => (pay_fee d mid mo a pd no now).2
  | .deleteFee mid mo => (delete_fee d mid mo).2
  | .updateFee mid mo a dt no => (update_fee d mid mo a dt no).2
  | .logAttendance mid ts => (log_attendance d mid ts).2
  | .addClass n dy t i cap => (add_class d n dy t i cap).2
  | .bookClass mid cid => (book_class d mid cid).2
  | .updateGymDetails n lp cur => (update_gym_details d n lp cur).2
  | .resetData => reset_data d

def applyOps (d : GymData) (ops : List Op) : GymData :=
  ops.foldl applyOp d

/-- No attendee list is over capacity. -/
def classInv (d : GymData) : Prop :=
  ∀ p ∈ d.classes, (p.2 : GymClass).attendees.length ≤ p.2.capacity

instance (d : GymData) : Decidable (classInv d) := by
  unfold classInv; infer_instance

/-- Each member's month-keyed fee mapping has no duplicate keys (true of
every Python `dict`). -/
def feesWF (d : GymData) : Prop :=
  (keysA d.fees).Nodup ∧ ∀ p ∈ d.fees, (keysA (p.2 : List (String × FeeRecord))).Nodup

instance (d : GymData) : Decidable (feesWF d) := by
  unfold feesWF; infer_instance

/-- Member records carry their own key in the `id` field (established by
`add_member`, preserved by every update). -/
def membersIdCoherent (d : GymData) : Prop :=
  ∀ p ∈ d.members, (p.2 : Member).id = p.1

instance (d : GymData) : Decidable (membersIdCoherent d) := by
  unfold membersIdCoherent; infer_instance

/-! ### The user store (`auth_manager.py`)

Only the fields `is_subscription_active` reads are modelled; the
`subscription_expiry` value is stored as a `'YYYY-MM-DD'` string in the
source and modelled here as the date that `strptime` parses it to
(`none` for a missing/None expiry). -/

structure User where
  plan : String
  subscription_expiry : Option Date
deriving DecidableEq, Repr

/-- `is_subscription_active(username)`, with the ambient `datetime.now()`
made an explicit argument: `free_lifetime` is always active; otherwise the
stored expiry must be present and `datetime.now() <= strptime(expiry)`,
the right-hand side being midnight of the expiry date. -/
def is_subscription_active (users : List (String × User)) (now : DateTime)
    (username : String) : Bool :=
  match lookupA users username with
  | none => false
  | some u =>
      if u.plan = "free_lifetime" then true
      else
        match u.subscription_expiry with
        | none => false
        | some e => dtLe now ⟨e, 0, 0, 0⟩

/-- The activity rule exactly as the specification words it (for
comparison with the code): active iff `free_lifetime`, or the expiry is
present and is ≥ the current *date*. -/
def specSubscriptionActive (u : User) (today : Date) : Bool :=
  if u.plan = "free_lifetime" then true
  else
    match u.subscription_expiry with
    | none => false
    | some e => !dateLt e today

/-! ### Specification-side formulas (from the spec's wording, for
comparison with the code) -/

/-- Revenue as the spec words it: the sum of the paid fee amounts for the
month, over all members. -/
def specRevenue (d : GymData) (month : String) : ℚ :=
  ((d.members.filterMap (fun p => feeLookup d p.1 month)).map FeeRecord.amount).sum

/-- Expense total as the spec words it: the sum of the amounts of the
expenses dated in the month. -/
def specExpenses (d : GymData) (month : String) : ℚ :=
  (((d.expenses.map Prod.snd).filter (fun e => strStartsWith e.date month)).map
    Expense.amount).sum

/-! ### Concrete documents used as inputs of witnesses and counterexamples -/

def sampleMember (mid : String) : Member :=
  { id := mid, name := "Alice", phone := "123", email := "", photo := none
    joined_date := "2024-01-01", active := true, membership_type := "Gym"
    is_trial := false, trial_end_date := none }

/-- A document with one member who paid 3 for 2024-01 and one expense of 1
in 2024-01: its profit margin for 2024-01 is 200/3 % before rounding. -/
def plData : GymData :=
  { members := [("1", sampleMember "1")]
    fees := [("1", [("2024-01", { amount := 3, paid_date := "2024-01-05 10:00:00", notes := "" })])]
    expenses := [("EXP0001", { id := "EXP0001", category := "Rent", amount := 1
                               date := "2024-01-10", description := "" })]
    attendance := [], classes := [], next_member_id := 2
    gym_details := { name := "Gym Manager", logo := none, currency := "$" } }

/-- A document whose only class is full with member "1" booked. -/
def fullClassData : GymData :=
  { members := [("1", sampleMember "1"), ("2", sampleMember "2")]
    fees := [], expenses := [], attendance := []
    classes := [("1", { id := "1", name := "Yoga", day := "Monday", time := "17:00"
                        instructor := "Sam", capacity := 1, attendees := ["1"] })]
    next_member_id := 3
    gym_details := { name := "Gym Manager", logo := none, currency := "$" } }

/-- A standard-plan user whose subscription expires on 2026-10-12, and a
clock reading 08:30:00 on that same day. -/
def authBob : User := { plan := "standard", subscription_expiry := some ⟨2026, 10, 12⟩ }

def authUsers : List (String × User) := [("bob@example.com", authBob)]

def authNow : DateTime := { date := ⟨2026, 10, 12⟩, hour := 8, minute := 30, second := 0 }

/-- Expense-ID collision scenario: two inserts, then delete the first. -/
def expScenario : GymData :=
  (delete_expense
    (add_expense (add_expense emptyData "Rent" 100 "2024-01-01" "").2
      "Bills" 50 "2024-01-02" "").2
    "EXP0001").2

/-! ### Association-list lemmas -/

theorem lookupA_insertA_self {α : Type} (l : List (String × α)) (k : String) (v : α) :
    lookupA (insertA l k v) k = some v := by
  induction l with
  | nil => simp [insertA, lookupA]
  | cons p t ih =>
      by_cases h : p.1 = k <;> simp [insertA, lookupA, h, ih]

theorem lookupA_insertA_ne {α : Type} (l : List (String × α)) {k k' : String} (v : α)
    (h : k' ≠ k) : lookupA (insertA l k v) k' = lookupA l k' := by
  induction l with
  | nil => simp [insertA, lookupA, Ne.symm h]
  | cons p t ih =>
      by_cases hp : p.1 = k
      · simp [insertA, lookupA, hp, Ne.symm h]
      · simp only [insertA, hp, if_false, lookupA]
        by_cases hp' : p.1 = k' <;> simp [hp', ih]

theorem lookupA_eq_none {α : Type} {l : List (String × α)} {k : String}
    (h : k ∉ keysA l) : lookupA l k = none := by
  induction l with
  | nil => rfl
  | cons p t ih =>
      simp only [keysA, List.map_cons, List.mem_cons] at h
      push_neg at h
      have hp : ¬ p.1 = k := fun hk => h.1 hk.symm
      simp only [lookupA, hp, if_false]
      exact ih (by simpa [keysA] using h.2)

theorem lookupA_eraseA_self {α : Type} {l : List (String × α)} {k : String}
    (h : (keysA l).Nodup) : lookupA (eraseA l k) k = none := by
  induction l with
  | nil => rfl
  | cons p t ih =>
      simp only [keysA, List.map_cons, List.nodup_cons] at h
      by_cases hp : p.1 = k
      · simp only [eraseA, hp, if_true]
        exact lookupA_eq_none (fun hmem => h.1 (hp ▸ hmem))
      · simp only [eraseA, hp, if_false, lookupA, if_neg hp]
        exact ih h.2

theorem lookupA_eraseA_ne {α : Type} (l : List (String × α)) {k k' : String}
    (h : k' ≠ k) : lookupA (eraseA l k) k' = lookupA l k' := by
  induction l with
  | nil => rfl
  | cons p t ih =>
      by_cases hp : p.1 = k
      · simp [eraseA, lookupA, hp, Ne.symm h]
      · simp only [eraseA, hp, if_false, lookupA]
        by_cases hp' : p.1 = k' <;> simp [hp', ih]

theorem mem_insertA {α : Type} {l : List (String × α)} {k : String} {v : α}
    {p : String × α} (h : p ∈ insertA l k v) : p ∈ l ∨ p = (k, v) := by
  induction l with
  | nil => simpa [insertA] using h
  | cons q t ih =>
      by_cases hq : q.1 = k
      · simp only [insertA, hq, if_true, List.mem_cons] at h
        rcases h with h | h
        · exact Or.inr h
        · exact Or.inl (List.mem_cons_of_mem _ h)
      · simp only [insertA, hq, if_false, List.mem_cons] at h
        rcases h with h | h
        · exact Or.inl (h ▸ List.mem_cons_self _ _)
        · rcases ih h with h' | h'
          · exact Or.inl (List.mem_cons_of_mem _ h')
          · exact Or.inr h'

theorem lookupA_mem {α : Type} {l : List (String × α)} {k : String} {v : α}
    (h : lookupA l k = some v) : (k, v) ∈ l := by
  induction l with
  | nil => simp [lookupA] at h
  | cons p t ih =>
      obtain ⟨a, b⟩ := p
      by_cases hp : a = k
      · simp only [lookupA, hp, if_true, Option.some.injEq] at h
        subst hp
        subst h
        exact List.mem_cons_self _ _
      · simp only [lookupA, hp, if_false] at h
        exact List.mem_cons_of_mem _ (ih h)

theorem nodup_keysA_insertA {α : Type} {l : List (String × α)} (k : String) (v : α)
    (h : (keysA l).Nodup) : (keysA (insertA l k v)).Nodup := by
  induction l with
  | nil => simp [insertA, keysA]
  | cons p t ih =>
      simp only [keysA, List.map_cons, List.nodup_cons] at h
      by_cases hp : p.1 = k
      · simp only [insertA, hp, if_true, keysA, List.map_cons, List.nodup_cons]
        exact ⟨hp ▸ h.1, h.2⟩
      · simp only [insertA, hp, if_false, keysA, List.map_cons, List.nodup_cons]
        refine ⟨?_, ih h.2⟩
        intro hmem
        rcases List.mem_map.mp hmem with ⟨q, hq, hq1⟩
        rcases mem_insertA hq with hq' | hq'
        · exact h.1 (hq1 ▸ List.mem_map_of_mem Prod.fst hq')
        · exact hp (by rw [hq'] at hq1; exact hq1.symm ▸ rfl)

theorem countKey_eq_zero {α : Type} {l : List (String × α)} {k : String}
    (h : k ∉ keysA l) : countKey l k = 0 := by
  induction l with
  | nil => rfl
  | cons p t ih =>
      simp only [keysA, List.map_cons, List.mem_cons] at h
      push_neg at h
      simp only [countKey, List.filter_cons]
      have hne : (p.1 == k) = false := beq_eq_false_iff_ne.mpr fun hk => h.1 hk.symm
      rw [hne]
      simpa [countKey, keysA] using ih (by simpa [keysA] using h.2)

theorem countKey_insertA_self {α : Type} {l : List (String × α)} (k : String) (v : α)
    (h : (keysA l).Nodup) : countKey (insertA l k v) k = 1 := by
  induction l with
  | nil => simp [insertA, countKey]
  | cons p t ih =>
      simp only [keysA, List.map_cons, List.nodup_cons] at h
      by_cases hp : p.1 = k
      · simp only [insertA, hp, if_true, countKey, List.filter_cons, beq_self_eq_true,
          if_true, List.length_cons]
        have : countKey t k = 0 := countKey_eq_zero (hp ▸ h.1)
        simpa [countKey] using this
      · simp only [insertA, hp, if_false, countKey, List.filter_cons]
        have hne : (p.1 == k) = false := beq_eq_false_iff_ne.mpr hp
        rw [hne]
        simpa [countKey] using ih h.2
/-! ### Bridging lemmas -/

theorem feeLookup_eq_bind (d : GymData) (member_id month : String) :
    feeLookup d member_id month =
      (lookupA d.fees member_id).bind (fun inner => lookupA inner month) := by
  unfold feeLookup
  cases lookupA d.fees member_id <;> rfl

theorem is_fee_paid_eq (d : GymData) (member_id month : String) :
    is_fee_paid d member_id month = (feeLookup d member_id month).isSome := by
  unfold is_fee_paid feeLookup
  cases lookupA d.fees member_id <;> rfl

theorem paymentStatusGo_paid (fees : List (String × List (String × FeeRecord)))
    (month : String) (l : List (String × Member)) :
    (paymentStatusGo fees month l).paid =
      l.filterMap (fun p =>
        ((lookupA fees p.1).bind (fun inner => lookupA inner month)).map
          (fun fi => ⟨p.2, fi.paid_date, fi.amount⟩)) := by
  induction l with
  | nil => rfl
  | cons p t ih =>
      obtain ⟨mid, m⟩ := p
      cases h : (lookupA fees mid).bind (fun inner => lookupA inner month) <;>
        simp only [paymentStatusGo, h, ih, List.filterMap_cons, Option.map_none',
          Option.map_some']

theorem paymentStatusGo_unpaid (fees : List (String × List (String × FeeRecord)))
    (month : String) (l : List (String × Member)) :
    (paymentStatusGo fees month l).unpaid =
      (l.filter (fun p =>
        ((lookupA fees p.1).bind (fun inner => lookupA inner month)).isNone)).map
        Prod.snd := by
  induction l with
  | nil => rfl
  | cons p t ih =>
      obtain ⟨mid, m⟩ := p
      cases h : (lookupA fees mid).bind (fun inner => lookupA inner month) <;>
        simp only [paymentStatusGo, h, ih, List.filter_cons, Option.isNone_none,
          Option.isNone_some, if_true, if_false, List.map_cons, Bool.false_eq_true,
          Bool.true_eq_false, reduceIte]

theorem insertLe_perm {α : Type} (le : α → α → Bool) (a : α) (l : List α) :
    (insertLe le a l).Perm (a :: l) := by
  induction l with
  | nil => exact List.Perm.refl _
  | cons b t ih =>
      by_cases h : le a b
      · simp [insertLe, h]
      · simp only [insertLe, h, if_false]
        exact (ih.cons b).trans (List.Perm.swap a b t)

theorem sortLe_perm {α : Type} (le : α → α → Bool) (l : List α) :
    (sortLe le l).Perm l := by
  induction l with
  | nil => exact List.Perm.refl _
  | cons a t ih => exact (insertLe_perm le a (sortLe le t)).trans (ih.cons a)

theorem sum_map_sortLe {α : Type} (le : α → α → Bool) (f : α → ℚ) (l : List α) :
    ((sortLe le l).map f).sum = (l.map f).sum :=
  ((sortLe_perm le l).map f).sum_eq

theorem dtLe_midnight_iff (a : DateTime) (e : Date) :
    dtLe a ⟨e, 0, 0, 0⟩ = true ↔
      (dateLt a.date e = true ∨
        (a.date = e ∧ a.hour = 0 ∧ a.minute = 0 ∧ a.second = 0)) := by
  simp only [dtLe, Bool.or_eq_true, Bool.and_eq_true, decide_eq_true_eq, beq_iff_eq]
  constructor
  · rintro (h | ⟨hd, h⟩)
    · exact Or.inl h
    · refine Or.inr ⟨hd, ?_⟩
      rcases h with h | ⟨hh, h⟩
      · omega
      · rcases h with h | ⟨hm, hs⟩ <;> omega
  · rintro (h | ⟨hd, hh, hm, hs⟩)
    · exact Or.inl h
    · exact Or.inr ⟨hd, Or.inr ⟨hh, Or.inr ⟨hm, by omega⟩⟩⟩

/-! ### Frame lemmas for single operations -/

theorem pay_fee_members_eq (d : GymData) (mid month : String) (a : ℚ)
    (pd no : Option String) (now : String) :
    (pay_fee d mid month a pd no now).2.members = d.members := by
  unfold pay_fee
  cases h : lookupA d.members mid <;> rfl

theorem pay_fee_fees_eq (d : GymData) (mid month : String) (a : ℚ)
    (pd no : Option String) (now : String) (m : Member)
    (h : lookupA d.members mid = some m) :
    (pay_fee d mid month a pd no now).2.fees =
      insertA d.fees mid (insertA ((lookupA d.fees mid).getD []) month
        { amount := a, paid_date := resolvePaidDate pd now, notes := no.getD "" }) := by
  unfold pay_fee
  rw [h]

theorem add_member_classes_eq (d : GymData) (n p : String) (ph : Option String)
    (mt : String) (j : Option String) (tr : Bool) (e : Option String)
    (now : String) (r : Nat × GymData)
    (h : add_member d n p ph mt j tr e now = some r) :
    r.2.classes = d.classes := by
  unfold add_member at h
  simp only [] at h
  cases tr with
  | false =>
      rw [if_neg Bool.false_ne_true] at h
      injection h with h2
      rw [← h2]
  | true =>
      rw [if_pos rfl] at h
      cases hp : parseDate (resolveJoined j now) with
      | none => rw [hp] at h; exact Option.noConfusion h
      | some t =>
          rw [hp] at h
          injection h with h2
          rw [← h2]

/-- One `GymManager` call keeps every attendee list within capacity. -/
theorem classInv_applyOp (d : GymData) (op : Op) (h : classInv d) :
    classInv (applyOp d op) := by
  cases op with
  | addMember n p ph mt j tr e now =>
      simp only [applyOp]
      cases hm : add_member d n p ph mt j tr e now with
      | none => exact h
      | some r =>
          intro q hq
          rw [add_member_classes_eq d n p ph mt j tr e now r hm] at hq
          exact h q hq
  | updateMember mid n p mt j e =>
      simp only [applyOp, update_member]
      cases hm : lookupA d.members mid
      · exact h
      · exact fun q hq => h q hq
  | deleteMember mid =>
      simp only [applyOp, delete_member]
      cases hm : lookupA d.members mid
      · exact h
      · exact fun q hq => h q hq
  | addExpense c a dt ds =>
      exact fun q hq => h q hq
  | deleteExpense eid =>
      simp only [applyOp, delete_expense]
      cases hm : lookupA d.expenses eid
      · exact h
      · exact fun q hq => h q hq
  | payFee mid mo a pd no now =>
      simp only [applyOp, pay_fee]
      cases hm : lookupA d.members mid
      · exact h
      · exact fun q hq => h q hq
  | deleteFee mid mo =>
      simp only [applyOp, delete_fee]
      cases hm : lookupA d.fees mid with
      | none => exact h
      | some inner =>
          simp only []
          cases hmm : lookupA inner mo
          · exact h
          · exact fun q hq => h q hq
  | updateFee mid mo a dt no =>
      simp only [applyOp, update_fee]
      cases hm : lookupA d.fees mid with
      | none => exact h
      | some inner =>
          simp only []
          cases hmm : lookupA inner mo
          · exact h
          · exact fun q hq => h q hq
  | logAttendance mid ts =>
      simp only [applyOp, log_attendance]
      cases hm : lookupA d.members mid
      · exact h
      · exact fun q hq => h q hq
  | addClass n dy t i cap =>
      simp only [applyOp, add_class]
      intro q hq
      rcases mem_insertA hq with hql | hqe
      · exact h q hql
      · rw [hqe]
        exact Nat.zero_le _
  | bookClass mid cid =>
      simp only [applyOp, book_class]
      cases hc : lookupA d.classes cid with
      | none => exact h
      | some cls =>
          simp only []
          by_cases hmem : mid ∈ cls.attendees
          · rw [if_pos hmem]; exact h
          · rw [if_neg hmem]
            by_cases hcap : cls.capacity ≤ cls.attendees.length
            · rw [if_pos hcap]; exact h
            · rw [if_neg hcap]
              intro q hq
              rcases mem_insertA hq with hql | hqe
              · exact h q hql
              · rw [hqe]
                simp only [List.length_append, List.length_cons, List.length_nil]
                omega
  | updateGymDetails n lp cur =>
      exact fun q hq => h q hq
  | resetData =>
      exact fun q hq => absurd hq (List.not_mem_nil q)

/-! ### Claim theorems -/

/-- C3: `add_expense` assigns the identifier `"EXP"` followed by the
current expense count plus one, zero-padded to four digits; after deleting
`EXP0001` from a two-expense document, the next insertion is assigned
`EXP0002`, which is already the key of a stored expense (the colliding
insert overwrites it, so the count does not even grow). -/
theorem addExpense_id_from_count_and_collision :
    (∀ (d : GymData) (category : String) (amount : ℚ) (date description : String),
      expenseIdFor d = "EXP" ++ padNum 4 (d.expenses.length + 1) ∧
      lookupA (add_expense d category amount date description).2.expenses (expenseIdFor d) =
        some { id := expenseIdFor d, category := category, amount := amount
               date := date, description := description }) ∧
    (expenseIdFor expScenario = "EXP0002" ∧
      hasKey expScenario.expenses "EXP0002" = true ∧
      (add_expense expScenario "Misc" 5 "2024-02-01" "").2.expenses.length =
        expScenario.expenses.length) := by
  refine ⟨fun d c a dt ds => ⟨rfl, ?_⟩, by decide⟩
  exact lookupA_insertA_self d.expenses (expenseIdFor d) _

/-- C6: booking a member who is already on the attendee list returns True
and leaves the document (in particular the attendee list) unchanged, with
no capacity check. -/
theorem bookClass_idempotent (d : GymData) (member_id class_id : String)
    (cls : GymClass) (hc : lookupA d.classes class_id = some cls)
    (hm : member_id ∈ cls.attendees) :
    book_class d member_id class_id = (true, d) := by
  unfold book_class
  rw [hc]
  simp only []
  rw [if_pos hm]

/-- Witness for C6: re-booking member "1" into the full class succeeds and
changes nothing. -/
theorem bookClass_idempotent_witness :
    book_class fullClassData "1" "1" = (true, fullClassData) :=
  bookClass_idempotent fullClassData "1" "1" _ rfl (by decide)

/-- C10: every mutating `GymManager` operation that reports failure
returns the document exactly as it was. -/
theorem failing_ops_leave_document_unchanged :
    (∀ (d : GymData) (mid month : String) (a : ℚ) (pd no : Option String) (now : String),
      (pay_fee d mid month a pd no now).1 = false → (pay_fee d mid month a pd no now).2 = d) ∧
    (∀ (d : GymData) (mid month : String),
      (delete_fee d mid month).1 = false → (delete_fee d mid month).2 = d) ∧
    (∀ (d : GymData) (mid month : String) (a : ℚ) (dt : String) (no : Option String),
      (update_fee d mid month a dt no).1 = false → (update_fee d mid month a dt no).2 = d) ∧
    (∀ (d : GymData) (mid n p mt : String) (j e : Option String),
      (update_member d mid n p mt j e).1 = false → (update_member d mid n p mt j e).2 = d) ∧
    (∀ (d : GymData) (mid : String),
      (delete_member d mid).1 = false → (delete_member d mid).2 = d) ∧
    (∀ (d : GymData) (eid : String),
      (delete_expense d eid).1 = false → (delete_expense d eid).2 = d) ∧
    (∀ (d : GymData) (mid ts : String),
      (log_attendance d mid ts).1 = false → (log_attendance d mid ts).2 = d) ∧
    (∀ (d : GymData) (mid cid : String),
      (book_class d mid cid).1 = false → (book_class d mid cid).2 = d) := by
  refine ⟨?_, ?_, ?_, ?_, ?_, ?_, ?_, ?_⟩
  · intro d mid month a pd no now h
    unfold pay_fee at h ⊢
    cases hm : lookupA d.members mid
    · rfl
    · rw [hm] at h
      simp at h
  · intro d mid month h
    unfold delete_fee at h ⊢
    cases hf : lookupA d.fees mid with
    | none => rfl
    | some inner =>
        rw [hf] at h
        simp only [] at h ⊢
        cases hfm : lookupA inner month
        · rfl
        · rw [hfm] at h
          simp at h
  · intro d mid month a dt no h
    unfold update_fee at h ⊢
    cases hf : lookupA d.fees mid with
    | none => rfl
    | some inner =>
        rw [hf] at h
        simp only [] at h ⊢
        cases hfm : lookupA inner month
        · rfl
        · rw [hfm] at h
          simp at h
  · intro d mid n p mt j e h
    unfold update_member at h ⊢
    cases hm : lookupA d.members mid
    · rfl
    · rw [hm] at h
      simp at h
  · intro d mid h
    unfold delete_member at h ⊢
    cases hm : lookupA d.members mid
    · rfl
    · rw [hm] at h
      simp at h
  · intro d eid h
    unfold delete_expense at h ⊢
    cases he : lookupA d.expenses eid
    · rfl
    · rw [he] at h
      simp at h
  · intro d mid ts h
    unfold log_attendance at h ⊢
    cases hm : lookupA d.members mid
    · rfl
    · rw [hm] at h
      simp at h
  · intro d mid cid h
    unfold book_class at h ⊢
    cases hc : lookupA d.classes cid with
    | none => rfl
    | some cls =>
        rw [hc] at h
        simp only [] at h ⊢
        by_cases hmem : mid ∈ cls.attendees
        · rw [if_pos hmem] at h
          simp at h
        · rw [if_neg hmem] at h ⊢
          by_cases hcap : cls.capacity ≤ cls.attendees.length
          · rw [if_pos hcap]
          · rw [if_neg hcap] at h
            simp at h

/-- Witness for C10: each failing call on concrete documents leaves them
untouched. -/
theorem failing_ops_witness :
    (pay_fee emptyData "1" "2024-01" 5 none none "now").2 = emptyData ∧
    (delete_fee emptyData "1" "2024-01").2 = emptyData ∧
    (update_fee emptyData "1" "2024-01" 5 "d" none).2 = emptyData ∧
    (update_member emptyData "1" "n" "p" "Gym" none none).2 = emptyData ∧
    (delete_member emptyData "1").2 = emptyData ∧
    (delete_expense emptyData "EXP0001").2 = emptyData ∧
    (log_attendance emptyData "1" "ts").2 = emptyData ∧
    (book_class fullClassData "2" "1").2 = fullClassData :=
  ⟨failing_ops_leave_document_unchanged.1 emptyData "1" "2024-01" 5 none none "now" (by decide),
   failing_ops_leave_document_unchanged.2.1 emptyData "1" "2024-01" (by decide),
   failing_ops_leave_document_unchanged.2.2.1 emptyData "1" "2024-01" 5 "d" none (by decide),
   failing_ops_leave_document_unchanged.2.2.2.1 emptyData "1" "n" "p" "Gym" none none (by decide),
   failing_ops_leave_document_unchanged.2.2.2.2.1 emptyData "1" (by decide),
   failing_ops_leave_document_unchanged.2.2.2.2.2.1 emptyData "EXP0001" (by decide),
   failing_ops_leave_document_unchanged.2.2.2.2.2.2.1 emptyData "1" "ts" (by decide),
   failing_ops_leave_document_unchanged.2.2.2.2.2.2.2 fullClassData "2" "1" (by decide)⟩

/-- C2: booking a member who is not yet an attendee of a class whose
attendee list has reached capacity fails and leaves the document
unchanged; moreover, starting from any document whose attendee lists are
within capacity, no sequence of `GymManager` operations ever pushes an
attendee list past its class's capacity. -/
theorem bookClass_respects_capacity :
    (∀ (d : GymData) (member_id class_id : String) (cls : GymClass),
      lookupA d.classes class_id = some cls →
      member_id ∉ cls.attendees →
      cls.attendees.length = cls.capacity →
      book_class d member_id class_id = (false, d)) ∧
    (∀ (d : GymData) (ops : List Op), classInv d → classInv (applyOps d ops)) := by
  constructor
  · intro d member_id class_id cls hc hm hlen
    unfold book_class
    rw [hc]
    simp only []
    rw [if_neg hm, if_pos (le_of_eq hlen.symm)]
  · intro d ops
    induction ops generalizing d with
    | nil => exact fun h => h
    | cons op rest ih => exact fun h => ih (applyOp d op) (classInv_applyOp d op h)

/-- Witness for C2: booking member "2" into the full class fails without
changing anything, and a concrete build-a-class-and-overbook run keeps the
invariant. -/
theorem bookClass_respects_capacity_witness :
    book_class fullClassData "2" "1" = (false, fullClassData) ∧
    classInv (applyOps emptyData
      [Op.addClass "Yoga" "Monday" "17:00" "Sam" 1,
       Op.bookClass "1" "1", Op.bookClass "2" "1"]) :=
  ⟨bookClass_respects_capacity.1 fullClassData "2" "1" _ rfl (by decide) (by decide),
   bookClass_respects_capacity.2 emptyData
     [Op.addClass "Yoga" "Monday" "17:00" "Sam" 1,
      Op.bookClass "1" "1", Op.bookClass "2" "1"] (by decide)⟩

/-- C4: for a known member, `pay_fee` succeeds and `is_fee_paid` then
reports True for that member and month; after a successful `delete_fee`,
`is_fee_paid` reports False (the month-key maps of a Python dict have no
duplicate keys, the `Nodup` hypothesis). -/
theorem feePaid_after_pay_not_after_delete :
    (∀ (d : GymData) (mid month : String) (a : ℚ) (pd no : Option String) (now : String)
      (m : Member), lookupA d.members mid = some m →
        (pay_fee d mid month a pd no now).1 = true ∧
        is_fee_paid (pay_fee d mid month a pd no now).2 mid month = true) ∧
    (∀ (d : GymData) (mid month : String),
      (∀ p ∈ d.fees, (keysA (p.2 : List (String × FeeRecord))).Nodup) →
      (delete_fee d mid month).1 = true →
      is_fee_paid (delete_fee d mid month).2 mid month = false) := by
  constructor
  · intro d mid month a pd no now m hm
    unfold pay_fee
    rw [hm]
    refine ⟨rfl, ?_⟩
    unfold is_fee_paid
    rw [lookupA_insertA_self]
    simp only []
    rw [lookupA_insertA_self]
    rfl
  · intro d mid month hwf h
    unfold delete_fee at h ⊢
    cases hf : lookupA d.fees mid with
    | none => rw [hf] at h; simp at h
    | some inner =>
        rw [hf] at h
        simp only [] at h ⊢
        cases hfm : lookupA inner month with
        | none => rw [hfm] at h; simp at h
        | some r =>
            have hnd : (keysA inner).Nodup := hwf (mid, inner) (lookupA_mem hf)
            unfold is_fee_paid
            rw [lookupA_insertA_self]
            simp only []
            rw [lookupA_eraseA_self hnd]
            rfl

/-- Witness for C4: paying 2024-02 marks it paid on the sample document;
deleting the stored 2024-01 fee unmarks it. -/
theorem feePaid_after_pay_not_after_delete_witness :
    is_fee_paid (pay_fee plData "1" "2024-02" 5 none none "ts").2 "1" "2024-02" = true ∧
    is_fee_paid (delete_fee plData "1" "2024-01").2 "1" "2024-01" = false :=
  ⟨(feePaid_after_pay_not_after_delete.1 plData "1" "2024-02" 5 none none "ts"
      (sampleMember "1") (by decide)).2,
   feePaid_after_pay_not_after_delete.2 plData "1" "2024-01" (by decide) (by decide)⟩

/-- C5: `pay_fee` fails without effect for an unknown member; for a known
member it succeeds and the stored record for that member and month becomes
exactly the new `{amount, paid_date, notes}`; paying twice for the same
member and month leaves exactly one record under that month key. -/
theorem payFee_overwrites_single_record :
    (∀ (d : GymData) (mid month : String) (a : ℚ) (pd no : Option String) (now : String),
      lookupA d.members mid = none →
      pay_fee d mid month a pd no now = (false, d)) ∧
    (∀ (d : GymData) (mid month : String) (a : ℚ) (pd no : Option String) (now : String)
      (m : Member), lookupA d.members mid = some m →
        (pay_fee d mid month a pd no now).1 = true ∧
        feeLookup (pay_fee d mid month a pd no now).2 mid month =
          some { amount := a, paid_date := resolvePaidDate pd now, notes := no.getD "" }) ∧
    (∀ (d : GymData) (mid month : String) (a1 a2 : ℚ) (pd1 no1 pd2 no2 : Option String)
      (now1 now2 : String) (m : Member),
      lookupA d.members mid = some m →
      (∀ p ∈ d.fees, (keysA (p.2 : List (String × FeeRecord))).Nodup) →
      countKey ((lookupA (pay_fee (pay_fee d mid month a1 pd1 no1 now1).2
          mid month a2 pd2 no2 now2).2.fees mid).getD []) month = 1) := by
  refine ⟨?_, ?_, ?_⟩
  · intro d mid month a pd no now h
    unfold pay_fee
    rw [h]
  · intro d mid month a pd no now m hm
    refine ⟨?_, ?_⟩
    · unfold pay_fee
      rw [hm]
    · unfold feeLookup
      rw [pay_fee_fees_eq d mid month a pd no now m hm, lookupA_insertA_self]
      simp only []
      rw [lookupA_insertA_self]
  · intro d mid month a1 a2 pd1 no1 pd2 no2 now1 now2 m hm hwf
    have h1 : lookupA (pay_fee d mid month a1 pd1 no1 now1).2.members mid = some m := by
      rw [pay_fee_members_eq]; exact hm
    rw [pay_fee_fees_eq _ mid month a2 pd2 no2 now2 m h1, lookupA_insertA_self,
      Option.getD_some, pay_fee_fees_eq d mid month a1 pd1 no1 now1 m hm,
      lookupA_insertA_self, Option.getD_some]
    apply countKey_insertA_self
    apply nodup_keysA_insertA
    cases hf : lookupA d.fees mid with
    | none => simp [keysA]
    | some inner => exact hwf (mid, inner) (lookupA_mem hf)

/-- Witness for C5: an unknown member is rejected without effect; a known
member's payment is stored as given, and a double payment leaves one
record for the month. -/
theorem payFee_overwrites_single_record_witness :
    pay_fee emptyData "9" "2024-01" 5 none none "ts" = (false, emptyData) ∧
    feeLookup (pay_fee plData "1" "2024-03" 7 none none "ts").2 "1" "2024-03" =
      some { amount := 7, paid_date := "ts", notes := "" } ∧
    countKey ((lookupA (pay_fee (pay_fee plData "1" "2024-01" 5 (some "d1") none "n1").2
        "1" "2024-01" 9 (some "d2") (some "late") "n2").2.fees "1").getD []) "2024-01" = 1 :=
  ⟨payFee_overwrites_single_record.1 emptyData "9" "2024-01" 5 none none "ts" (by decide),
   (payFee_overwrites_single_record.2.1 plData "1" "2024-03" 7 none none "ts"
      (sampleMember "1") (by decide)).2,
   payFee_overwrites_single_record.2.2 plData "1" "2024-01" 5 9 (some "d1") none
     (some "d2") (some "late") "n1" "n2" (sampleMember "1") (by decide) (by decide)⟩

/-- C9: deleting a known member succeeds, removes the member (so
`get_member` returns none) and the member's fee records, and leaves
everything else in place: other members and fee entries, the whole
expense, attendance and class tables (so the deleted member's attendance
log and their entries on class attendee lists survive), the id counter and
the gym details. -/
theorem deleteMember_frame (d : GymData) (mid : String) (m : Member)
    (hm : lookupA d.members mid = some m)
    (hnd : (keysA d.members).Nodup) (hfnd : (keysA d.fees).Nodup) :
    (delete_member d mid).1 = true ∧
    get_member (delete_member d mid).2 mid = none ∧
    lookupA (delete_member d mid).2.fees mid = none ∧
    (∀ k : String, k ≠ mid →
      lookupA (delete_member d mid).2.members k = lookupA d.members k ∧
      lookupA (delete_member d mid).2.fees k = lookupA d.fees k) ∧
    (delete_member d mid).2.expenses = d.expenses ∧
    (delete_member d mid).2.attendance = d.attendance ∧
    (delete_member d mid).2.classes = d.classes ∧
    (delete_member d mid).2.next_member_id = d.next_member_id ∧
    (delete_member d mid).2.gym_details = d.gym_details ∧
    lookupA (delete_member d mid).2.attendance mid = lookupA d.attendance mid ∧
    (∀ (cid : String) (c : GymClass),
      lookupA d.classes cid = some c → mid ∈ c.attendees →
      lookupA (delete_member d mid).2.classes cid = some c) := by
  unfold delete_member get_member
  rw [hm]
  refine ⟨rfl, ?_, ?_, ?_, rfl, rfl, rfl, rfl, rfl, rfl, ?_⟩
  · exact lookupA_eraseA_self hnd
  · exact lookupA_eraseA_self hfnd
  · intro k hk
    exact ⟨lookupA_eraseA_ne d.members hk, lookupA_eraseA_ne d.fees hk⟩
  · intro cid c hc _
    exact hc

/-- Witness for C9: deleting member "1" from the sample document removes
the member and their fee map, while the expense table survives. -/
theorem deleteMember_frame_witness :
    get_member (delete_member plData "1").2 "1" = none ∧
    lookupA (delete_member plData "1").2.fees "1" = none ∧
    (delete_member plData "1").2.expenses = plData.expenses := by
  have H := deleteMember_frame plData "1" (sampleMember "1") (by decide) (by decide) (by decide)
  exact ⟨H.2.1, H.2.2.1, H.2.2.2.2.1⟩

theorem revenue_eq_specRevenue (d : GymData) (month : String) :
    ((get_payment_status d month).paid.map PaidEntry.amount).sum = specRevenue d month := by
  unfold get_payment_status specRevenue
  rw [paymentStatusGo_paid, List.map_filterMap, List.map_filterMap]
  congr 1
  apply List.filterMap_congr
  intro p _
  rw [feeLookup_eq_bind]
  cases (lookupA d.fees p.1).bind (fun inner => lookupA inner month) <;> rfl

theorem expenses_eq_specExpenses (d : GymData) (month : String) :
    ((get_expenses d (some month)).map Expense.amount).sum = specExpenses d month := by
  unfold get_expenses specExpenses
  simp only []
  by_cases hm : month = ""
  · subst hm
    rw [if_pos rfl, sum_map_sortLe]
    have hf : (d.expenses.map Prod.snd).filter (fun e => strStartsWith e.date "") =
        d.expenses.map Prod.snd :=
      List.filter_eq_self.mpr (fun e _ => by simp [strStartsWith, List.isPrefixOf])
    rw [hf]
  · rw [if_neg hm, sum_map_sortLe]

/-- C7 counterexample: with one fee of 3 and one expense of 1 in 2024-01
the exact margin is 200/3 %, but the code returns the two-decimal rounding
66.67, so `profit_margin` is not `net_profit / revenue * 100`. -/
theorem calculateProfitLoss_counterexample :
    (calculate_profit_loss plData "2024-01").revenue = 3 ∧
    (calculate_profit_loss plData "2024-01").expenses = 1 ∧
    (calculate_profit_loss plData "2024-01").net_profit = 2 ∧
    (calculate_profit_loss plData "2024-01").profit_margin ≠ 2 / 3 * 100 ∧
    (calculate_profit_loss plData "2024-01").profit_margin = 6667 / 100 := by
  have hps : get_payment_status plData "2024-01" =
      { paid := [{ member := sampleMember "1", last_paid := "2024-01-05 10:00:00"
                   amount := 3 }]
        unpaid := [] } := rfl
  have hexp : get_expenses plData (some "2024-01") =
      [{ id := "EXP0001", category := "Rent", amount := 1, date := "2024-01-10"
         description := "" }] := rfl
  simp only [calculate_profit_loss, hps, hexp, List.map_cons, List.map_nil,
    List.sum_cons, List.sum_nil]
  norm_num [pyRound2, roundHalfEven]

/-- C7 (amended): `calculate_profit_loss` returns revenue = the sum of the
paid fee amounts for the month, expenses = the sum of the expense amounts
dated in the month, net_profit = revenue − expenses, and profit_margin =
net_profit/revenue×100 *rounded to two decimals (half to even)* when
revenue is positive, and 0 otherwise — in particular 0 whenever revenue is
0, regardless of the expense total. -/
theorem calculateProfitLoss_amended (d : GymData) (month : String) :
    (calculate_profit_loss d month).revenue = specRevenue d month ∧
    (calculate_profit_loss d month).expenses = specExpenses d month ∧
    (calculate_profit_loss d month).net_profit =
      specRevenue d month - specExpenses d month ∧
    (calculate_profit_loss d month).profit_margin =
      (if 0 < specRevenue d month
       then pyRound2 ((specRevenue d month - specExpenses d month) /
              specRevenue d month * 100)
       else 0) := by
  unfold calculate_profit_loss
  simp only []
  refine ⟨revenue_eq_specRevenue d month, expenses_eq_specExpenses d month, ?_, ?_⟩
  · rw [revenue_eq_specRevenue, expenses_eq_specExpenses]
  · rw [revenue_eq_specRevenue, expenses_eq_specExpenses]
    by_cases h : 0 < specRevenue d month
    · rw [if_pos h, if_pos h]
    · rw [if_neg h, if_neg h]
      norm_num [pyRound2, roundHalfEven]

theorem paid_ids_eq (fees : List (String × List (String × FeeRecord)))
    (month : String) (l : List (String × Member))
    (hid : ∀ p ∈ l, (p.2 : Member).id = p.1) :
    (paymentStatusGo fees month l).paid.map (fun e => e.member.id) =
      (l.map Prod.fst).filter
        (fun k => ((lookupA fees k).bind (fun inner => lookupA inner month)).isSome) := by
  induction l with
  | nil => rfl
  | cons p t ih =>
      obtain ⟨mid, m⟩ := p
      have hm : m.id = mid := hid (mid, m) (List.mem_cons_self _ _)
      have ht : ∀ q ∈ t, (q.2 : Member).id = q.1 :=
        fun q hq => hid q (List.mem_cons_of_mem _ hq)
      cases hb : (lookupA fees mid).bind (fun inner => lookupA inner month) with
      | none =>
          simp only [paymentStatusGo, hb]
          rw [ih ht]
          simp [List.filter_cons, hb]
      | some fi =>
          simp only [paymentStatusGo, hb, List.map_cons]
          rw [ih ht]
          simp [List.filter_cons, hb, hm]

theorem unpaid_ids_eq (fees : List (String × List (String × FeeRecord)))
    (month : String) (l : List (String × Member))
    (hid : ∀ p ∈ l, (p.2 : Member).id = p.1) :
    (paymentStatusGo fees month l).unpaid.map Member.id =
      (l.map Prod.fst).filter
        (fun k => !((lookupA fees k).bind (fun inner => lookupA inner month)).isSome) := by
  induction l with
  | nil => rfl
  | cons p t ih =>
      obtain ⟨mid, m⟩ := p
      have hm : m.id = mid := hid (mid, m) (List.mem_cons_self _ _)
      have ht : ∀ q ∈ t, (q.2 : Member).id = q.1 :=
        fun q hq => hid q (List.mem_cons_of_mem _ hq)
      cases hb : (lookupA fees mid).bind (fun inner => lookupA inner month) with
      | none =>
          simp only [paymentStatusGo, hb, List.map_cons]
          rw [ih ht]
          simp [List.filter_cons, hb, hm]
      | some fi =>
          simp only [paymentStatusGo, hb]
          rw [ih ht]
          simp [List.filter_cons, hb]

/-- C8: for a document whose member records carry their own key as `id`
(as `add_member` guarantees), `get_payment_status` partitions the members:
the paid ids are exactly the member keys with a fee record for the month,
the unpaid ids exactly the others, the two lists are disjoint, their union
is the member-key set, and every paid entry carries the stored fee's
`paid_date` (as `last_paid`) and `amount`. -/
theorem getPaymentStatus_partition (d : GymData) (month : String)
    (hid : membersIdCoherent d) :
    ((get_payment_status d month).paid.map (fun e => e.member.id) =
      (keysA d.members).filter (fun k => is_fee_paid d k month)) ∧
    ((get_payment_status d month).unpaid.map Member.id =
      (keysA d.members).filter (fun k => !(is_fee_paid d k month))) ∧
    (∀ k : String,
      ¬(k ∈ (get_payment_status d month).paid.map (fun e => e.member.id) ∧
        k ∈ (get_payment_status d month).unpaid.map Member.id)) ∧
    (∀ k : String, k ∈ keysA d.members ↔
      (k ∈ (get_payment_status d month).paid.map (fun e => e.member.id) ∨
       k ∈ (get_payment_status d month).unpaid.map Member.id)) ∧
    (∀ e ∈ (get_payment_status d month).paid,
      ∃ fi : FeeRecord, feeLookup d e.member.id month = some fi ∧
        e.last_paid = fi.paid_date ∧ e.amount = fi.amount) := by
  have hpred : ∀ k, is_fee_paid d k month =
      ((lookupA d.fees k).bind (fun inner => lookupA inner month)).isSome :=
    fun k => by rw [is_fee_paid_eq, feeLookup_eq_bind]
  have h1 : (get_payment_status d month).paid.map (fun e => e.member.id) =
      (keysA d.members).filter (fun k => is_fee_paid d k month) := by
    unfold get_payment_status
    rw [paid_ids_eq d.fees month d.members hid]
    exact List.filter_congr (fun k _ => (hpred k).symm)
  have h2 : (get_payment_status d month).unpaid.map Member.id =
      (keysA d.members).filter (fun k => !(is_fee_paid d k month)) := by
    unfold get_payment_status
    rw [unpaid_ids_eq d.fees month d.members hid]
    refine List.filter_congr (fun k _ => ?_)
    rw [hpred k]
  refine ⟨h1, h2, ?_, ?_, ?_⟩
  · intro k ⟨hk1, hk2⟩
    rw [h1] at hk1
    rw [h2] at hk2
    have hp1 := (List.mem_filter.mp hk1).2
    have hp2 := (List.mem_filter.mp hk2).2
    rw [hp1] at hp2
    exact absurd hp2 (by simp)
  · intro k
    rw [h1, h2]
    constructor
    · intro hk
      cases hfp : is_fee_paid d k month
      · exact Or.inr (List.mem_filter.mpr ⟨hk, by rw [hfp]; rfl⟩)
      · exact Or.inl (List.mem_filter.mpr ⟨hk, hfp⟩)
    · rintro (hk | hk)
      · exact (List.mem_filter.mp hk).1
      · exact (List.mem_filter.mp hk).1
  · intro e he
    unfold get_payment_status at he
    rw [paymentStatusGo_paid] at he
    rcases List.mem_filterMap.mp he with ⟨p, hp, hfe⟩
    cases hb : (lookupA d.fees p.1).bind (fun inner => lookupA inner month) with
    | none => rw [hb] at hfe; exact absurd hfe (by simp)
    | some fi =>
        rw [hb] at hfe
        simp only [Option.map_some', Option.some.injEq] at hfe
        subst hfe
        refine ⟨fi, ?_, rfl, rfl⟩
        simp only []
        rw [hid p hp, feeLookup_eq_bind]
        exact hb

/-- Witness for C8: the concrete partition of the sample document. -/
theorem getPaymentStatus_partition_witness :
    ((get_payment_status plData "2024-01").paid.map (fun e => e.member.id) =
      (keysA plData.members).filter (fun k => is_fee_paid plData k "2024-01")) ∧
    ((get_payment_status plData "2024-01").unpaid.map Member.id =
      (keysA plData.members).filter (fun k => !(is_fee_paid plData k "2024-01"))) :=
  ⟨(getPaymentStatus_partition plData "2024-01" (by decide)).1,
   (getPaymentStatus_partition plData "2024-01" (by decide)).2.1⟩

/-- C1 counterexample: a standard-plan user whose expiry date equals the
current date is "not in the past" (the spec rule accepts it), yet
`is_subscription_active` compares `datetime.now()` against midnight of the
expiry date and returns False at 08:30 that day. -/
theorem subscriptionActive_counterexample :
    specSubscriptionActive authBob authNow.date = true ∧
    lookupA authUsers "bob@example.com" = some authBob ∧
    authBob.plan ≠ "free_lifetime" ∧
    authBob.subscription_expiry = some authNow.date ∧
    is_subscription_active authUsers authNow "bob@example.com" = false := by
  decide

/-- C1 (amended): for a user present in the store,
`is_subscription_active` returns true iff the plan is `free_lifetime`
(regardless of expiry), or the expiry is present and the current datetime
is no later than the expiry date's midnight — i.e. the expiry date is
strictly after the current date, or equal to it with the clock exactly at
00:00:00; it is false when the expiry is absent. -/
theorem subscriptionActive_characterization (users : List (String × User))
    (now : DateTime) (username : String) (u : User)
    (hu : lookupA users username = some u) :
    is_subscription_active users now username = true ↔
      (u.plan = "free_lifetime" ∨
        ∃ e, u.subscription_expiry = some e ∧
          (dateLt now.date e = true ∨
            (now.date = e ∧ now.hour = 0 ∧ now.minute = 0 ∧ now.second = 0))) := by
  unfold is_subscription_active
  rw [hu]
  simp only []
  by_cases hp : u.plan = "free_lifetime"
  · rw [if_pos hp]
    simp [hp]
  · rw [if_neg hp]
    cases he : u.subscription_expiry with
    | none => simp [hp, he]
    | some e =>
        simp only []
        rw [dtLe_midnight_iff]
        simp [hp, he]

/-- Witness for C1: a standard user whose expiry is strictly in the
future is active. -/
theorem subscriptionActive_characterization_witness :
    is_subscription_active authUsers
      { date := { year := 2026, month := 10, day := 11 }
        hour := 23, minute := 59, second := 0 } "bob@example.com" = true :=
  (subscriptionActive_characterization authUsers
      { date := { year := 2026, month := 10, day := 11 }
        hour := 23, minute := 59, second := 0 } "bob@example.com" authBob
      (by decide)).mpr
    (Or.inr ⟨{ year := 2026, month := 10, day := 12 }, rfl, Or.inl (by decide)⟩)

end Gym
